import Mathlib

/-!
Verification development for the meteor-mocha test-orchestration daemon
(`src/unnamed/part_000`).  The JavaScript source is shallowly embedded:
pure helpers (`normalizePath`, `escapeRegex`, `pathMatchesPattern`,
`findSuitesForFile`) become Lean functions on `String`/`List Char`;
the daemon's mutable module state (`daemonTestsRunning`,
`clientDisconnected`, `shuttingDown`, `activeConnections`,
`process.env.SNAPSHOT_UPDATE`) becomes an explicit `DaemonState` record
threaded through the entry guard, the run-completion callback and the
shutdown handler; SSE events written to the response become an `Event`
inductive.  The external regex engine consumed by the composed grep
filter is modelled by a small regex AST `Rx` with relational matching
semantics `Mat`.
-/

/-- Character-level model of the JS `split('/')` used by
`pathMatchesPattern`: splits on `'/'`, keeping empty segments, and always
returns at least one (possibly empty) segment. -/
def splitSegs : List Char → List (List Char)
  | [] => [[]]
  | c :: rest =>
    if c = '/' then [] :: splitSegs rest
    else
      match splitSegs rest with
      | [] => [[c]]
      | seg :: segs => (c :: seg) :: segs

/-- Model of the JS `replace(/\x5c\x2f+$/, '')` step of `pathMatchesPattern`
(with the regex meaning: strip all trailing slashes). -/
def dropTrailingSlashes (l : List Char) : List Char :=
  (l.reverse.dropWhile (fun c => c = '/')).reverse

/-- Segment sequence of a path as computed inside `pathMatchesPattern`:
trailing slashes stripped, then split on `'/'`. -/
def segsOf (s : String) : List (List Char) :=
  splitSegs (dropTrailingSlashes s.data)

/-- Inner loop of `pathMatchesPattern`: does the pattern segment sequence
`ps` match the file segment sequence `fs` starting at index `start`? -/
def segMatchAt (fs ps : List (List Char)) (start : Nat) : Bool :=
  (List.range ps.length).all fun i => fs[start + i]? == ps[i]?

/-- Embedding of `pathMatchesPattern` (src/unnamed/part_000, lines
536-561): strip trailing slashes, split both paths into `/`-separated
segments, reject when the pattern has more segments, then search every
start offset for a contiguous whole-segment match. -/
def pathMatchesPattern (filePath pattern : String) : Bool :=
  let fileSegments := segsOf filePath
  let patternSegments := segsOf pattern
  if patternSegments.length > fileSegments.length then false
  else (List.range (fileSegments.length - patternSegments.length + 1)).any
    (segMatchAt fileSegments patternSegments)

/-- Embedding of `normalizePath` (lines 31-38): strip leading slashes,
then convert backslashes to forward slashes.  The empty string is
returned unchanged, matching the falsy early return. -/
def normalizePath (s : String) : String :=
  String.mk ((s.data.dropWhile (fun c => c = '/')).map
    (fun c => if c = '\\' then '/' else c))

/-- The fourteen characters replaced by `escapeRegex`'s character class
(line 504). -/
def regexSpecialChars : List Char :=
  ['.', '*', '+', '?', '^', '$', '\x7b', '\x7d', '(', ')', '|', '[', ']', '\\']

def isRegexSpecial (c : Char) : Bool := regexSpecialChars.contains c

/-- Per-character action of the global replace in `escapeRegex`:
a special character becomes backslash-then-character, anything else is
kept. -/
def escapeChar (c : Char) : List Char :=
  if isRegexSpecial c then ['\\', c] else [c]

def escapeChars : List Char → List Char
  | [] => []
  | c :: rest => escapeChar c ++ escapeChars rest

/-- Embedding of `escapeRegex` (lines 503-505). -/
def escapeRegex (s : String) : String := String.mk (escapeChars s.data)

/-- Modelled from the spec: reading of a regex source that consists only
of literal items, as the external JS regex engine would read the output
of `escapeRegex` (each backslash escapes the next character; an
unescaped metacharacter or a dangling backslash is not a pure literal).
Returns the character sequence the source matches literally. -/
def parseLiteralRegex : List Char → Option (List Char)
  | [] => some []
  | c :: rest =>
    if c = '\\' then
      match rest with
      | [] => none
      | d :: rest2 => (parseLiteralRegex rest2).map (fun l => d :: l)
    else if isRegexSpecial c then none
    else (parseLiteralRegex rest).map (fun l => c :: l)

/-- Model of JS `Array.prototype.join(sep)`, used by the run endpoint as
`fileSuites.join('|')` and by the modelled `fullTitle()`. -/
def joinSep (sep : String) : List String → String
  | [] => ""
  | [t] => t
  | t :: ts => t ++ sep ++ joinSep sep ts

mutual
/-- A node of the mocha suite registry: `title` (the root suite has the
empty title), the optional source `file` tag set by the wrapped
`describe`, and child suites. -/
inductive Suite where
  | node (title : String) (file : Option String) (children : SuiteList)
/-- Children of a `Suite`, as a specialised list so that the tree walkers
are structurally recursive. -/
inductive SuiteList where
  | nil
  | cons (head : Suite) (tail : SuiteList)
end

mutual
/-- Embedding of the recursive `findSuites` walker inside
`findSuitesForFile` (lines 572-583): resolve the node's file as
`suite.file || parentFile`, push the escaped full title when the
normalized file matches the pattern and the node has a title, then
recurse into the children with the resolved file.  `fullTitle()` is
provided by mocha, outside this repository; it is modelled from the
spec as the titled ancestors joined with the node's own title
(implementation-defined separator, here a space). -/
def findSuitesWalk (normalizedPattern : String) (parentFile : Option String)
    (ancestorTitles : List String) : Suite → List String
  | .node title file children =>
    let f := file.or parentFile
    let matched :=
      match f with
      | some ff =>
        if pathMatchesPattern (normalizePath ff) normalizedPattern = true ∧ title ≠ "" then
          [escapeRegex (joinSep " " (ancestorTitles ++ [title]))]
        else []
      | none => []
    let childTitles := if title = "" then ancestorTitles else ancestorTitles ++ [title]
    matched ++ findSuitesWalkL normalizedPattern f childTitles children
def findSuitesWalkL (normalizedPattern : String) (parentFile : Option String)
    (ancestorTitles : List String) : SuiteList → List String
  | .nil => []
  | .cons s rest =>
    findSuitesWalk normalizedPattern parentFile ancestorTitles s ++
      findSuitesWalkL normalizedPattern parentFile ancestorTitles rest
end

/-- Embedding of `findSuitesForFile` (lines 568-587): normalize the
pattern once, then walk the registry from the root with no inherited
file. -/
def findSuitesForFile (root : Suite) (filePattern : String) : List String :=
  findSuitesWalk (normalizePath filePattern) none [] root

/-- Modelled from the spec: abstract syntax of the fragment of the
external JS regex language needed for the composed name filter —
literals, `.`, concatenation, alternation, Kleene star, lookahead
`(?=...)`, a capturing group, and the `^` anchor. -/
inductive Rx where
  | eps
  | lit (c : Char)
  | anyc
  | seq (a b : Rx)
  | alt (a b : Rx)
  | star (a : Rx)
  | look (a : Rx)
  | group (a : Rx)
  | bol

/-- The literal regex matching exactly the character sequence `u`. -/
def litRx : List Char → Rx
  | [] => .eps
  | c :: u => .seq (.lit c) (litRx u)

/-- Alternation of a list of regexes, associated the way `join('|')`
reads back. -/
def altList : List Rx → Rx
  | [] => .eps
  | [r] => r
  | r :: rs => .alt r (altList rs)

/-- The AST of the composed filter `(?=^(t1|...|tn))(?=.*g)` built by the
run endpoint when both a file filter and a user grep are present:
a lookahead anchoring one of the (escaped, hence literal) suite titles at
the start, conjoined with a lookahead searching the user pattern. -/
def lookaheadConjFilter (titles : List String) (g : Rx) : Rx :=
  .seq (.look (.seq .bol (.group (altList (titles.map (fun t => litRx t.data))))))
       (.look (.seq (.star .anyc) g))

/-- Source text of a regex AST.  Literal characters print through
`escapeChar`, so a `litRx` prints exactly as `escapeRegex` writes it. -/
def rxSource : Rx → String
  | .eps => ""
  | .lit c => String.mk (escapeChar c)
  | .anyc => "."
  | .seq a b => rxSource a ++ rxSource b
  | .alt a b => rxSource a ++ "|" ++ rxSource b
  | .star a => rxSource a ++ "*"
  | .look a => "(?=" ++ rxSource a ++ ")"
  | .group a => "(" ++ rxSource a ++ ")"
  | .bol => "^"

/-- Modelled from the spec: matching semantics of the external regex
engine on a character list.  `Mat s r i j` holds when `r` matches the
slice of `s` from position `i` to position `j`; `.` refuses a newline,
`^` holds only at position 0 (no multiline flag is set anywhere in the
source), and a lookahead consumes nothing. -/
inductive Mat (s : List Char) : Rx → Nat → Nat → Prop where
  | eps (i : Nat) : Mat s .eps i i
  | lit (i : Nat) (c : Char) (h : s[i]? = some c) : Mat s (.lit c) i (i + 1)
  | anyc (i : Nat) (c : Char) (h : s[i]? = some c) (hn : c ≠ '\n') : Mat s .anyc i (i + 1)
  | seq {a b : Rx} {i j k : Nat} (h1 : Mat s a i j) (h2 : Mat s b j k) : Mat s (.seq a b) i k
  | altL {a b : Rx} {i j : Nat} (h : Mat s a i j) : Mat s (.alt a b) i j
  | altR {a b : Rx} {i j : Nat} (h : Mat s b i j) : Mat s (.alt a b) i j
  | starNil (a : Rx) (i : Nat) : Mat s (.star a) i i
  | starCons {a : Rx} {i j k : Nat} (h1 : Mat s a i j) (h2 : Mat s (.star a) j k) :
      Mat s (.star a) i k
  | look {a : Rx} {i j : Nat} (h : Mat s a i j) : Mat s (.look a) i i
  | group {a : Rx} {i j : Nat} (h : Mat s a i j) : Mat s (.group a) i j
  | bol : Mat s .bol 0 0

/-- Modelled from the spec: `RegExp.prototype.test` — the regex matches
somewhere in the string.  This is how mocha applies the grep filter to a
candidate full title. -/
def rtest (r : Rx) (t : String) : Prop := ∃ i j, Mat t.data r i j

/-- Per-run options forwarded from the query string to `runDaemonTests`
(line 659). -/
structure RunOptions where
  reporter : String
  snapshotUpdate : Bool
  bail : Bool
deriving DecidableEq

/-- The daemon's process-wide mutable state: the three module-level flags
(lines 297-299), the `activeConnections` set (line 302, insertion
ordered), and the `SNAPSHOT_UPDATE` environment variable (`none` =
unset). -/
structure DaemonState where
  daemonTestsRunning : Bool
  clientDisconnected : Bool
  shuttingDown : Bool
  activeConnections : List Nat
  snapshotEnv : Option String
deriving DecidableEq

/-- The value delivered to a runner completion callback: a numeric
failure count, or anything else (`nonNumeric`). -/
inductive FailureVal where
  | num (n : Nat)
  | nonNumeric
deriving DecidableEq

/-- One server-sent event written to a run connection, by payload
`type`. -/
inductive Event where
  | start (description : String) (invert : Bool)
  | log (data : String)
  | error (data : String)
  | json (data : String)
  | heartbeat
  | done (failures : FailureVal)
  | shutdown (reason : String)
deriving DecidableEq

def isLogEvent : Event → Bool
  | .log _ => true
  | _ => false

def isShutdownEvent : Event → Bool
  | .shutdown _ => true
  | _ => false

/-- JS `Set.prototype.add`: append if absent. -/
def insertConn (c : Nat) (l : List Nat) : List Nat :=
  if c ∈ l then l else l ++ [c]

/-- Result of the synchronous head of `runDaemonTests`: the state after
the entry guard, the events written to the requesting connection, whether
that connection was ended, and whether the guard was passed (so that
configuration and `mochaInstance.run` happen). -/
structure EntryResult where
  state : DaemonState
  events : List Event
  closed : Bool
  proceeded : Bool
deriving DecidableEq

/-- Embedding of the entry guard and synchronous setup of
`runDaemonTests` (lines 327-351): reject with an error event while a run
is in progress; otherwise reject with a shutdown event while shutting
down; otherwise mark running, clear the disconnect flag, register the
connection and, when `snapshotUpdate` was requested, set the
`SNAPSHOT_UPDATE` environment variable to "1". -/
def runDaemonTestsEntry (c : Nat) (opts : RunOptions) (s : DaemonState) : EntryResult :=
  if s.daemonTestsRunning then
    { state := s,
      events := [.error "Tests already running - wait or restart daemon"],
      closed := true, proceeded := false }
  else if s.shuttingDown then
    { state := s,
      events := [.shutdown "Server is shutting down"],
      closed := true, proceeded := false }
  else
    { state := { s with
        daemonTestsRunning := true,
        clientDisconnected := false,
        activeConnections := insertConn c s.activeConnections,
        snapshotEnv := if opts.snapshotUpdate then some "1" else s.snapshotEnv },
      events := [], closed := false, proceeded := true }

/-- JS template interpolation of a failure-count value. -/
def failureText : FailureVal → String
  | .num n => toString n
  | .nonNumeric => "undefined"

/-- Embedding of the `mochaInstance.run` completion callback of
`runDaemonTests` (lines 457-497).  `previousSnapshotUpdate` and
`useJsonReporter` are the closure values captured at entry
(lines 348, 384), `jsonBuffer` is the buffer accumulated by the stdout
interceptor, `cleanupError` is a caught `resetAllCollections` failure.
Returns the new state, the events written to the connection and the
local console log lines. -/
def runDaemonTestsComplete (c : Nat) (previousSnapshotUpdate : Option String)
    (useJsonReporter : Bool) (jsonBuffer : String) (cleanupError : Option String)
    (failureCount : FailureVal) (s : DaemonState) :
    DaemonState × List Event × List String :=
  let cleanupLogs :=
    match cleanupError with
    | some e => ["[daemon] Failed to reset collections: " ++ e]
    | none => []
  let s1 := { s with
      snapshotEnv := previousSnapshotUpdate,
      daemonTestsRunning := false,
      activeConnections := s.activeConnections.erase c }
  if s.clientDisconnected then
    (s1, [],
      cleanupLogs ++
        ["[daemon] Tests completed (" ++ failureText failureCount ++
          " failures) but client already disconnected"])
  else
    (s1,
      (if useJsonReporter = true ∧ jsonBuffer ≠ "" then [Event.json jsonBuffer.trim] else []) ++
        [Event.done failureCount],
      cleanupLogs)

/-- Embedding of the `shutdown` closure of `setupShutdownHandlers`
(lines 305-325): idempotent; on first signal set the flag, write a
shutdown event to every registered connection and clear the registry. -/
def shutdownHandler (signal : String) (s : DaemonState) : DaemonState × List (Nat × Event) :=
  if s.shuttingDown then (s, [])
  else
    ({ s with shuttingDown := true, activeConnections := [] },
      s.activeConnections.map (fun c => (c, Event.shutdown signal)))

/-- Embedding of the non-daemon `mochaInstance.run` callback inside
`serverTests` (lines 221-231): a non-numeric failure count is reported
as one failure together with a distinct log line; a numeric count is
passed through. -/
def serverTestsRunCallback : FailureVal → Nat × List String
  | .num n => (n, [])
  | .nonNumeric =>
    (1, ["Mocha did not return a failure count for server tests as expected"])

/-- Model of JS `str.replace(/\x5cn$/, '')`: remove one trailing newline
if present. -/
def stripTrailingNewline (s : String) : String :=
  match s.data.getLast? with
  | some c => if c = '\n' then String.mk s.data.dropLast else s
  | none => s

/-- One intercepted write during a run: a `process.stdout.write` chunk or
a `process.stderr.write` chunk. -/
inductive WriteOp where
  | out (chunk : String)
  | err (chunk : String)
deriving DecidableEq

/-- Embedding of the installed write interceptors (lines 416-431), acting
on the `jsonBuffer` closure variable: in JSON-reporter mode a stdout
chunk is appended to the buffer instead of being streamed as a `log`
event; a stderr chunk is always streamed as one `error` event with the
trailing newline stripped. -/
def interceptWrite (useJsonReporter : Bool) (op : WriteOp) (jsonBuffer : String) :
    String × List Event :=
  match op with
  | .out chunk =>
    if useJsonReporter then (jsonBuffer ++ chunk, [])
    else (jsonBuffer, [.log (stripTrailingNewline chunk)])
  | .err chunk => (jsonBuffer, [.error (stripTrailingNewline chunk)])

/-- The interceptors applied to a whole sequence of writes, returning the
final buffer and the concatenated stream of emitted events. -/
def interceptTrace (useJsonReporter : Bool) (jsonBuffer : String) :
    List WriteOp → String × List Event
  | [] => (jsonBuffer, [])
  | op :: ops =>
    let r1 := interceptWrite useJsonReporter op jsonBuffer
    let r2 := interceptTrace useJsonReporter r1.1 ops
    (r2.1, r1.2 ++ r2.2)

/-- Concatenation of the stdout chunks of a write trace. -/
def concatOut : List WriteOp → String
  | [] => ""
  | .out c :: ops => c ++ concatOut ops
  | .err _ :: ops => concatOut ops

/-- The error events a JSON-mode run streams for a write trace: one per
stderr chunk, in order, trailing newline stripped. -/
def errEvents : List WriteOp → List Event
  | [] => []
  | .out _ :: ops => errEvents ops
  | .err c :: ops => .error (stripTrailingNewline c) :: errEvents ops

/-- The query parameters of one `/test/run` request (lines 614-620). -/
structure RunQuery where
  grep : String
  file : String
  invert : Bool
  reporter : String
  snapshotUpdate : Bool
  bail : Bool
deriving DecidableEq

/-- Result of the `/test/run` handler up to and including the
`runDaemonTests` entry guard: resulting state, events written, whether
the connection was ended, the effective grep string handed to
`runDaemonTests` (`none` when the zero-suite fast path returned first),
and whether `mochaInstance.run` is reached. -/
structure HandleResult where
  state : DaemonState
  events : List Event
  closed : Bool
  effectiveGrep : Option String
  runnerInvoked : Bool
deriving DecidableEq

/-- Embedding of the `/test/run` endpoint (lines 612-660): when a file
pattern is given, resolve it to suite titles; zero matches fail fast with
an `error` event and a synthetic `done` with one failure; otherwise build
the anchored file grep, conjoin it with a user grep through the two
lookaheads, emit the `start` event and enter `runDaemonTests`. -/
def handleRunRequest (root : Suite) (q : RunQuery) (c : Nat) (s : DaemonState) :
    HandleResult :=
  if q.file ≠ "" then
    let fileSuites := findSuitesForFile root q.file
    if fileSuites = [] then
      { state := s,
        events := [.error ("No tests found for file: " ++ q.file), .done (.num 1)],
        closed := true, effectiveGrep := none, runnerInvoked := false }
    else
      let fileGrep := "^(" ++ joinSep "|" fileSuites ++ ")"
      let effectiveGrep :=
        if q.grep ≠ "" then "(?=" ++ fileGrep ++ ")(?=.*" ++ q.grep ++ ")" else fileGrep
      let filename := (q.file.splitOn "/").getLastD ""
      let description := if q.grep ≠ "" then filename ++ " (" ++ q.grep ++ ")" else filename
      let entry := runDaemonTestsEntry c ⟨q.reporter, q.snapshotUpdate, q.bail⟩ s
      { state := entry.state,
        events := .start description q.invert :: entry.events,
        closed := entry.closed,
        effectiveGrep := some effectiveGrep,
        runnerInvoked := entry.proceeded }
  else
    let description := if q.grep ≠ "" then q.grep else "all tests"
    let entry := runDaemonTestsEntry c ⟨q.reporter, q.snapshotUpdate, q.bail⟩ s
    { state := entry.state,
      events := .start description q.invert :: entry.events,
      closed := entry.closed,
      effectiveGrep := some q.grep,
      runnerInvoked := entry.proceeded }

theorem segMatchAt_iff (fs ps : List (List Char)) (start : Nat) :
    segMatchAt fs ps start = true ↔ ∀ i, i < ps.length → fs[start + i]? = ps[i]? := by
  unfold segMatchAt
  rw [List.all_eq_true]
  constructor
  · intro h i hi
    have := h i (List.mem_range.mpr hi)
    simpa using this
  · intro h i hi
    simpa using h i (List.mem_range.mp hi)

theorem pathMatchesPattern_infix_iff (f p : String) :
    pathMatchesPattern f p = true ↔ segsOf p <:+: segsOf f := by
  unfold pathMatchesPattern
  rcases Nat.lt_or_ge (segsOf f).length (segsOf p).length with hlt | hge
  · simp only [if_pos hlt]
    constructor
    · intro h; exact absurd h (by simp)
    · intro h
      have := h.length_le
      omega
  · have hnot : ¬ (segsOf p).length > (segsOf f).length := Nat.not_lt.mpr hge
    simp only [if_neg hnot]
    rw [List.any_eq_true]
    constructor
    · rintro ⟨start, hmem, hmatch⟩
      have hstart := List.mem_range.mp hmem
      have hcond := (segMatchAt_iff _ _ _).mp hmatch
      rw [List.isInfix_iff]
      refine ⟨start, by omega, ?_⟩
      intro i hi
      rw [Nat.add_comm i start, hcond i hi]
      exact List.getElem?_eq_getElem hi
    · intro h
      rw [List.isInfix_iff] at h
      obtain ⟨k, hk, hval⟩ := h
      refine ⟨k, List.mem_range.mpr (by omega), (segMatchAt_iff _ _ _).mpr ?_⟩
      intro i hi
      rw [Nat.add_comm k i, hval i hi]
      exact (List.getElem?_eq_getElem hi).symm

/-- C3: `pathMatchesPattern` returns true exactly when the pattern's
'/'-separated segment sequence (trailing slashes stripped) occurs as a
contiguous, whole-segment subsequence of the file's segment sequence; in
particular it is false whenever the pattern has more segments than the
file, "abc/def" matches "x/abc/def/file.ts" and does not match
"x/abc/defg/file.ts" or "x/abcd/def/file.ts". -/
theorem C3_pathMatchesPattern_contiguous_whole_segment :
    (∀ f p : String, pathMatchesPattern f p = true ↔ segsOf p <:+: segsOf f)
    ∧ (∀ f p : String, (segsOf p).length > (segsOf f).length →
        pathMatchesPattern f p = false)
    ∧ pathMatchesPattern "x/abc/def/file.ts" "abc/def" = true
    ∧ pathMatchesPattern "x/abc/defg/file.ts" "abc/def" = false
    ∧ pathMatchesPattern "x/abcd/def/file.ts" "abc/def" = false := by
  refine ⟨pathMatchesPattern_infix_iff, ?_, by decide, by decide, by decide⟩
  intro f p h
  simp only [pathMatchesPattern, if_pos h]

/-- C3 witness: a pattern with more segments than the file ("a/b/c"
against file "a") does not match. -/
theorem C3_witness :
    (segsOf "a/b/c").length > (segsOf "a").length ∧
      pathMatchesPattern "a" "a/b/c" = false :=
  ⟨by decide, C3_pathMatchesPattern_contiguous_whole_segment.2.1 "a" "a/b/c" (by decide)⟩

theorem escapeChars_append (a b : List Char) :
    escapeChars (a ++ b) = escapeChars a ++ escapeChars b := by
  induction a with
  | nil => rfl
  | cons c a ih => simp [escapeChars, ih]

theorem parseLiteralRegex_escapeChars (l : List Char) :
    parseLiteralRegex (escapeChars l) = some l := by
  induction l with
  | nil => rfl
  | cons c l ih =>
    by_cases hc : isRegexSpecial c = true
    · simp [escapeChars, escapeChar, hc, parseLiteralRegex, ih]
    · have hcb : c ≠ '\\' := by
        intro h
        subst h
        exact hc (by decide)
      have he : escapeChars (c :: l) = c :: escapeChars l := by
        simp [escapeChars, escapeChar, hc]
      rw [he, parseLiteralRegex.eq_def]
      simp only [if_neg hcb, if_neg hc, ih]
      rfl

theorem Mat_eps_iff {s : List Char} {i j : Nat} : Mat s .eps i j ↔ j = i := by
  constructor
  · intro h
    cases h
    rfl
  · intro h
    subst h
    exact .eps _

theorem Mat_lit_iff {s : List Char} {c : Char} {i j : Nat} :
    Mat s (.lit c) i j ↔ j = i + 1 ∧ s[i]? = some c := by
  constructor
  · intro h
    cases h with
    | lit _ _ hh => exact ⟨rfl, hh⟩
  · rintro ⟨rfl, hh⟩
    exact .lit _ _ hh

theorem Mat_anyc_iff {s : List Char} {i j : Nat} :
    Mat s .anyc i j ↔ ∃ c, j = i + 1 ∧ s[i]? = some c ∧ c ≠ '\n' := by
  constructor
  · intro h
    cases h with
    | anyc _ c hh hn => exact ⟨c, rfl, hh, hn⟩
  · rintro ⟨c, rfl, hh, hn⟩
    exact .anyc _ _ hh hn

theorem Mat_seq_iff {s : List Char} {a b : Rx} {i k : Nat} :
    Mat s (.seq a b) i k ↔ ∃ j, Mat s a i j ∧ Mat s b j k := by
  constructor
  · intro h
    cases h with
    | seq h1 h2 => exact ⟨_, h1, h2⟩
  · rintro ⟨j, h1, h2⟩
    exact .seq h1 h2

theorem Mat_alt_iff {s : List Char} {a b : Rx} {i j : Nat} :
    Mat s (.alt a b) i j ↔ Mat s a i j ∨ Mat s b i j := by
  constructor
  · intro h
    cases h with
    | altL h => exact Or.inl h
    | altR h => exact Or.inr h
  · rintro (h | h)
    · exact .altL h
    · exact .altR h

theorem Mat_look_iff {s : List Char} {a : Rx} {i j : Nat} :
    Mat s (.look a) i j ↔ j = i ∧ ∃ m, Mat s a i m := by
  constructor
  · intro h
    cases h with
    | look h => exact ⟨rfl, _, h⟩
  · rintro ⟨rfl, m, h⟩
    exact .look h

theorem Mat_group_iff {s : List Char} {a : Rx} {i j : Nat} :
    Mat s (.group a) i j ↔ Mat s a i j := by
  constructor
  · intro h
    cases h with
    | group h => exact h
  · intro h
    exact .group h

theorem Mat_bol_iff {s : List Char} {i j : Nat} : Mat s .bol i j ↔ i = 0 ∧ j = 0 := by
  constructor
  · intro h
    cases h
    exact ⟨rfl, rfl⟩
  · rintro ⟨rfl, rfl⟩
    exact .bol

theorem cons_prefix_drop {s : List Char} {c : Char} {u : List Char} {i : Nat} :
    c :: u <+: s.drop i ↔ s[i]? = some c ∧ u <+: s.drop (i + 1) := by
  cases h : s.drop i with
  | nil =>
    have h0 : s[i]? = none := by
      have h2 := List.getElem?_drop s i 0
      rw [h] at h2
      simpa using h2.symm
    simp [h0]
  | cons d ds =>
    have h0 : s[i]? = some d := by
      have h2 := List.getElem?_drop s i 0
      rw [h] at h2
      simpa using h2.symm
    have h1 : s.drop (i + 1) = ds := by
      rw [← List.tail_drop, h]
      rfl
    rw [List.cons_prefix_cons, h0, h1]
    constructor
    · rintro ⟨rfl, hu⟩
      exact ⟨rfl, hu⟩
    · rintro ⟨hd, hu⟩
      injection hd with hd2
      exact ⟨hd2.symm, hu⟩

theorem Mat_litRx_iff {s : List Char} (u : List Char) {i j : Nat} :
    Mat s (litRx u) i j ↔ j = i + u.length ∧ u <+: s.drop i := by
  induction u generalizing i j with
  | nil =>
    rw [show litRx [] = .eps from rfl, Mat_eps_iff]
    simp
  | cons c u ih =>
    rw [show litRx (c :: u) = .seq (.lit c) (litRx u) from rfl, Mat_seq_iff]
    constructor
    · rintro ⟨m, h1, h2⟩
      rw [Mat_lit_iff] at h1
      rw [ih] at h2
      obtain ⟨rfl, hc⟩ := h1
      obtain ⟨rfl, hu⟩ := h2
      refine ⟨by simp only [List.length_cons]; omega, cons_prefix_drop.mpr ⟨hc, hu⟩⟩
    · rintro ⟨rfl, hpre⟩
      obtain ⟨hc, hu⟩ := cons_prefix_drop.mp hpre
      refine ⟨i + 1, Mat_lit_iff.mpr ⟨rfl, hc⟩,
        ih.mpr ⟨by simp only [List.length_cons]; omega, hu⟩⟩

/-- C6: `escapeRegex` acts character-wise — exactly the fourteen regex
metacharacters get a backslash prepended, everything else is unchanged —
it distributes over append, and its output read back as a regex is the
literal regex of the input, which full-matches the original string and
nothing else. -/
theorem C6_escapeRegex_escapes_and_roundtrips :
    (∀ c : Char, escapeChars [c] = if isRegexSpecial c then ['\\', c] else [c])
    ∧ (∀ a b : String, escapeRegex (a ++ b) = escapeRegex a ++ escapeRegex b)
    ∧ (∀ s : String, parseLiteralRegex (escapeRegex s).data = some s.data)
    ∧ (∀ s t : String, Mat t.data (litRx s.data) 0 t.data.length ↔ t = s) := by
  refine ⟨?_, ?_, ?_, ?_⟩
  · intro c
    simp [escapeChars, escapeChar]
  · intro a b
    apply String.ext
    show escapeChars ((a ++ b).data) = escapeChars a.data ++ escapeChars b.data
    rw [String.data_append, escapeChars_append]
  · intro s
    exact parseLiteralRegex_escapeChars s.data
  · intro s t
    rw [Mat_litRx_iff]
    constructor
    · rintro ⟨hlen, hpre⟩
      rw [List.drop_zero] at hpre
      have hd : s.data = t.data := hpre.eq_of_length (by omega)
      exact (String.ext hd).symm
    · rintro rfl
      refine ⟨by omega, ?_⟩
      rw [List.drop_zero]

theorem Mat_star_elim {s : List Char} {a : Rx} (P : Nat → Nat → Prop)
    (base : ∀ i, P i i)
    (step : ∀ i j k, Mat s a i j → Mat s (Rx.star a) j k → P j k → P i k) :
    ∀ {r : Rx} {i j : Nat}, Mat s r i j → r = Rx.star a → P i j := by
  intro r i j h
  induction h with
  | eps i => intro he; cases he
  | lit i c hh => intro he; cases he
  | anyc i c hh hn => intro he; cases he
  | seq h1 h2 ih1 ih2 => intro he; cases he
  | altL hh ih => intro he; cases he
  | altR hh ih => intro he; cases he
  | starNil a2 i => intro he; exact base i
  | starCons h1 h2 ih1 ih2 =>
    intro he
    injection he with ha
    subst ha
    exact step _ _ _ h1 h2 (ih2 rfl)
  | look hh ih => intro he; cases he
  | group hh ih => intro he; cases he
  | bol => intro he; cases he

theorem Mat_starAnyc_elim {s : List Char} {i j : Nat} (h : Mat s (Rx.star Rx.anyc) i j) :
    i ≤ j ∧ ∀ m, i ≤ m → m < j → ∃ c, s[m]? = some c ∧ c ≠ '\n' := by
  refine Mat_star_elim
    (fun i j => i ≤ j ∧ ∀ m, i ≤ m → m < j → ∃ c, s[m]? = some c ∧ c ≠ '\n') ?_ ?_ h rfl
  · intro i
    exact ⟨Nat.le_refl i, fun m h1 h2 => absurd (Nat.lt_of_le_of_lt h1 h2) (Nat.lt_irrefl i)⟩
  · intro i j k h1 h2 ih
    rw [Mat_anyc_iff] at h1
    obtain ⟨c, rfl, hc, hn⟩ := h1
    refine ⟨by omega, fun m hm1 hm2 => ?_⟩
    rcases Nat.lt_or_ge m (i + 1) with hlt | hge
    · have hm : m = i := by omega
      subst hm
      exact ⟨c, hc, hn⟩
    · exact ih.2 m hge hm2

theorem Mat_starAnyc_intro (s : List Char) :
    ∀ (d i : Nat), (∀ m, i ≤ m → m < i + d → ∃ c, s[m]? = some c ∧ c ≠ '\n') →
      Mat s (Rx.star Rx.anyc) i (i + d) := by
  intro d
  induction d with
  | zero => intro i _; exact .starNil _ i
  | succ d ih =>
    intro i hc
    obtain ⟨c, h1, h2⟩ := hc i (Nat.le_refl i) (by omega)
    have hrest := ih (i + 1) (fun m hm1 hm2 => hc m (by omega) (by omega))
    have harith : i + (d + 1) = (i + 1) + d := by omega
    rw [harith]
    exact .starCons (.anyc i c h1 h2) hrest

theorem Mat_starAnyc_iff {s : List Char} {i j : Nat} :
    Mat s (Rx.star Rx.anyc) i j ↔
      (i ≤ j ∧ ∀ m, i ≤ m → m < j → ∃ c, s[m]? = some c ∧ c ≠ '\n') := by
  constructor
  · exact Mat_starAnyc_elim
  · rintro ⟨h1, h2⟩
    have hd : j = i + (j - i) := by omega
    rw [hd]
    exact Mat_starAnyc_intro s (j - i) i (fun m hm1 hm2 => h2 m hm1 (by omega))

theorem Mat_altList_cons_iff {s : List Char} (r : Rx) (rs : List Rx) {i j : Nat} :
    Mat s (altList (r :: rs)) i j ↔ ∃ x ∈ r :: rs, Mat s x i j := by
  induction rs generalizing r with
  | nil =>
    rw [show altList [r] = r from rfl]
    simp
  | cons r2 rs2 ih =>
    rw [show altList (r :: r2 :: rs2) = .alt r (altList (r2 :: rs2)) from rfl, Mat_alt_iff,
      ih r2]
    simp

theorem strMk_append (a b : List Char) : String.mk a ++ String.mk b = String.mk (a ++ b) := rfl

theorem rxSource_litRx (u : List Char) : rxSource (litRx u) = String.mk (escapeChars u) := by
  induction u with
  | nil => rfl
  | cons c u ih =>
    rw [show litRx (c :: u) = .seq (.lit c) (litRx u) from rfl,
      show rxSource (.seq (.lit c) (litRx u))
        = String.mk (escapeChar c) ++ rxSource (litRx u) from rfl,
      ih, strMk_append]
    rfl

theorem rxSource_altList_map (ts : List String) :
    rxSource (altList (ts.map (fun t => litRx t.data))) = joinSep "|" (ts.map escapeRegex) := by
  induction ts with
  | nil => rfl
  | cons t ts ih =>
    cases ts with
    | nil =>
      show rxSource (altList [litRx t.data]) = joinSep "|" [escapeRegex t]
      rw [show altList [litRx t.data] = litRx t.data from rfl,
        show joinSep "|" [escapeRegex t] = escapeRegex t from rfl]
      exact rxSource_litRx t.data
    | cons t2 ts2 =>
      show rxSource (altList (litRx t.data :: litRx t2.data :: ts2.map (fun x => litRx x.data)))
        = joinSep "|" (escapeRegex t :: escapeRegex t2 :: ts2.map escapeRegex)
      rw [show altList (litRx t.data :: litRx t2.data :: ts2.map (fun x => litRx x.data))
          = .alt (litRx t.data) (altList (litRx t2.data :: ts2.map (fun x => litRx x.data)))
          from rfl]
      rw [show rxSource (.alt (litRx t.data)
            (altList (litRx t2.data :: ts2.map (fun x => litRx x.data))))
          = rxSource (litRx t.data) ++ "|"
            ++ rxSource (altList (litRx t2.data :: ts2.map (fun x => litRx x.data)))
          from rfl]
      have ih2 : rxSource (altList (litRx t2.data :: ts2.map (fun x => litRx x.data)))
          = joinSep "|" (escapeRegex t2 :: ts2.map escapeRegex) := ih
      rw [ih2, rxSource_litRx t.data]
      rfl

theorem rxSource_lookaheadConjFilter (ts : List String) (g : Rx) :
    rxSource (lookaheadConjFilter ts g) =
      "(?=^(" ++ joinSep "|" (ts.map escapeRegex) ++ "))(?=.*" ++ rxSource g ++ ")" := by
  rw [show rxSource (lookaheadConjFilter ts g)
      = ("(?=" ++ ("^" ++ ("(" ++ rxSource (altList (ts.map (fun t => litRx t.data))) ++ ")"))
          ++ ")") ++ ("(?=" ++ ("." ++ "*" ++ rxSource g) ++ ")") from rfl]
  rw [rxSource_altList_map]
  simp only [String.append_assoc]
  rfl

theorem rtest_lookaheadConjFilter {us : List String} (hne : us ≠ []) (g : Rx) (t : String) :
    rtest (lookaheadConjFilter us g) t ↔
      ((∃ u ∈ us, u.data <+: t.data) ∧
        ∃ m jg, (∀ k, k < m → ∃ c, t.data[k]? = some c ∧ c ≠ '\n') ∧ Mat t.data g m jg) := by
  obtain ⟨u0, us2, rfl⟩ : ∃ u0 us2, us = u0 :: us2 := by
    cases us with
    | nil => exact absurd rfl hne
    | cons a l => exact ⟨a, l, rfl⟩
  constructor
  · rintro ⟨i, j, h⟩
    rw [show lookaheadConjFilter (u0 :: us2) g
        = .seq (.look (.seq .bol
            (.group (altList ((u0 :: us2).map (fun x => litRx x.data))))))
            (.look (.seq (.star .anyc) g)) from rfl, Mat_seq_iff] at h
    obtain ⟨m1, hA, hB⟩ := h
    rw [Mat_look_iff] at hA
    obtain ⟨rfl, jA, hA⟩ := hA
    rw [Mat_look_iff] at hB
    obtain ⟨rfl, jB, hB⟩ := hB
    rw [Mat_seq_iff] at hA
    obtain ⟨mb, hbol, hgrp⟩ := hA
    rw [Mat_bol_iff] at hbol
    obtain ⟨rfl, rfl⟩ := hbol
    rw [Mat_group_iff, List.map_cons] at hgrp
    rw [Mat_altList_cons_iff] at hgrp
    obtain ⟨x, hx, hmat⟩ := hgrp
    have hux : ∃ u, u ∈ u0 :: us2 ∧ x = litRx u.data := by
      rcases List.mem_cons.mp hx with h1 | h2
      · exact ⟨u0, List.mem_cons_self u0 us2, h1⟩
      · obtain ⟨u, hu2, he⟩ := List.mem_map.mp h2
        exact ⟨u, List.mem_cons_of_mem u0 hu2, he.symm⟩
    obtain ⟨u, hu, rfl⟩ := hux
    rw [Mat_litRx_iff] at hmat
    obtain ⟨hlen, hpre⟩ := hmat
    rw [List.drop_zero] at hpre
    rw [Mat_seq_iff] at hB
    obtain ⟨m, hstar, hg⟩ := hB
    have hstar2 := Mat_starAnyc_elim hstar
    exact ⟨⟨u, hu, hpre⟩, m, jB,
      fun k hk => hstar2.2 k (Nat.zero_le k) hk, hg⟩
  · rintro ⟨⟨u, hu, hpre⟩, m, jg, hchars, hg⟩
    refine ⟨0, 0, ?_⟩
    rw [show lookaheadConjFilter (u0 :: us2) g
        = .seq (.look (.seq .bol
            (.group (altList ((u0 :: us2).map (fun x => litRx x.data))))))
            (.look (.seq (.star .anyc) g)) from rfl]
    have hA : Mat t.data
        (.seq .bol (.group (altList ((u0 :: us2).map (fun x => litRx x.data)))))
        0 u.data.length := by
      refine Mat.seq .bol (Mat.group ?_)
      rw [List.map_cons, Mat_altList_cons_iff]
      have hmem : litRx u.data ∈ (u0 :: us2).map (fun x => litRx x.data) :=
        List.mem_map.mpr ⟨u, hu, rfl⟩
      rw [List.map_cons] at hmem
      refine ⟨litRx u.data, hmem, ?_⟩
      rw [Mat_litRx_iff]
      exact ⟨by omega, by rwa [List.drop_zero]⟩
    have hBm : Mat t.data (.seq (.star .anyc) g) 0 jg :=
      Mat.seq (Mat_starAnyc_iff.mpr ⟨Nat.zero_le m, fun k h1 h2 => hchars k h2⟩) hg
    exact Mat.seq (Mat.look hA) (Mat.look hBm)

/-- C5: when the run request carries both a file pattern (resolving to
the escaped titles of `us`) and a user name pattern, the run endpoint
reaches the runner and hands it exactly the conjunction filter
`(?=^(t1|...|tn))(?=.*g)`; under the modelled regex-engine semantics that
filter selects a candidate title precisely when the title starts with one
of the file-suite titles AND the user pattern independently matches on
the same full string (reached through `.*`), not a sequential
narrowing. -/
theorem C5_conjunction_filter (root : Suite) (q : RunQuery) (c : Nat) (s : DaemonState)
    (us : List String) (g : Rx)
    (hfile : q.file ≠ "") (hgrep : q.grep ≠ "")
    (hsuites : findSuitesForFile root q.file = us.map escapeRegex)
    (hne : us ≠ [])
    (hg : q.grep = rxSource g)
    (hidle : s.daemonTestsRunning = false) (hdown : s.shuttingDown = false) :
    ((handleRunRequest root q c s).runnerInvoked = true
      ∧ (handleRunRequest root q c s).effectiveGrep =
          some (rxSource (lookaheadConjFilter us g)))
    ∧ ∀ title : String,
        rtest (lookaheadConjFilter us g) title ↔
          ((∃ u ∈ us, u.data <+: title.data) ∧
            ∃ m jg, (∀ k, k < m → ∃ ch, title.data[k]? = some ch ∧ ch ≠ '\n')
              ∧ Mat title.data g m jg) := by
  refine ⟨?_, fun title => rtest_lookaheadConjFilter hne g title⟩
  have hmapne : us.map escapeRegex ≠ [] := by
    cases us with
    | nil => exact absurd rfl hne
    | cons a l => simp
  have hr : handleRunRequest root q c s =
      { state := (runDaemonTestsEntry c ⟨q.reporter, q.snapshotUpdate, q.bail⟩ s).state,
        events := .start ((if q.grep ≠ "" then
            ((q.file.splitOn "/").getLastD "") ++ " (" ++ q.grep ++ ")"
          else ((q.file.splitOn "/").getLastD ""))) q.invert ::
          (runDaemonTestsEntry c ⟨q.reporter, q.snapshotUpdate, q.bail⟩ s).events,
        closed := (runDaemonTestsEntry c ⟨q.reporter, q.snapshotUpdate, q.bail⟩ s).closed,
        effectiveGrep := some (if q.grep ≠ "" then
            "(?=" ++ ("^(" ++ joinSep "|" (us.map escapeRegex) ++ ")") ++ ")(?=.*"
              ++ q.grep ++ ")"
          else "^(" ++ joinSep "|" (us.map escapeRegex) ++ ")"),
        runnerInvoked := (runDaemonTestsEntry c ⟨q.reporter, q.snapshotUpdate, q.bail⟩ s).proceeded } := by
    rw [handleRunRequest, if_pos hfile, hsuites, if_neg hmapne]
  rw [hr]
  constructor
  · show (runDaemonTestsEntry c ⟨q.reporter, q.snapshotUpdate, q.bail⟩ s).proceeded = true
    rw [runDaemonTestsEntry, hidle]
    simp [hdown]
  · show some (if q.grep ≠ "" then
        "(?=" ++ ("^(" ++ joinSep "|" (us.map escapeRegex) ++ ")") ++ ")(?=.*"
          ++ q.grep ++ ")"
      else "^(" ++ joinSep "|" (us.map escapeRegex) ++ ")")
      = some (rxSource (lookaheadConjFilter us g))
    rw [if_pos hgrep, hg, rxSource_lookaheadConjFilter]
    congr 1
    simp only [String.append_assoc]
    rfl

/-- C5 witness: a registry with one suite "A" from file "x/a.spec.ts",
file pattern "x/a.spec.ts" and user grep "foo" make the endpoint invoke
the runner with the printed conjunction filter. -/
theorem C5_witness :
    (handleRunRequest
        (Suite.node "" none
          (SuiteList.cons (Suite.node "A" (some "x/a.spec.ts") SuiteList.nil) SuiteList.nil))
        ⟨"foo", "x/a.spec.ts", false, "spec", false, false⟩ 0
        ⟨false, false, false, [], none⟩).effectiveGrep =
      some (rxSource (lookaheadConjFilter ["A"] (litRx "foo".data))) :=
  (C5_conjunction_filter
    (Suite.node "" none
      (SuiteList.cons (Suite.node "A" (some "x/a.spec.ts") SuiteList.nil) SuiteList.nil))
    ⟨"foo", "x/a.spec.ts", false, "spec", false, false⟩ 0
    ⟨false, false, false, [], none⟩ ["A"] (litRx "foo".data)
    (by decide) (by decide) (by decide) (by decide) (by decide) rfl rfl).1.2

/-- C1: a run request arriving while `daemonTestsRunning` is true is
answered with exactly one "already running" error event, the connection
is closed, no state changes (flags, connection registry, environment),
the guard is not passed; consequently the in-flight run's completion
behaves exactly as if the rejected request had never arrived and — while
its peer is connected — still ends its event stream with its own `done`
event carrying the unchanged failure count. -/
theorem C1_already_running_guard (s : DaemonState) (c c2 : Nat) (opts : RunOptions)
    (prev : Option String) (useJson : Bool) (buf : String) (cleanup : Option String)
    (fc : FailureVal) (hrun : s.daemonTestsRunning = true) :
    ((runDaemonTestsEntry c2 opts s).events
        = [.error "Tests already running - wait or restart daemon"]
      ∧ (runDaemonTestsEntry c2 opts s).closed = true
      ∧ (runDaemonTestsEntry c2 opts s).state = s
      ∧ (runDaemonTestsEntry c2 opts s).proceeded = false)
    ∧ (runDaemonTestsComplete c prev useJson buf cleanup fc
          (runDaemonTestsEntry c2 opts s).state
        = runDaemonTestsComplete c prev useJson buf cleanup fc s)
    ∧ (s.clientDisconnected = false →
        (runDaemonTestsComplete c prev useJson buf cleanup fc
            (runDaemonTestsEntry c2 opts s).state).2.1.getLast?
          = some (.done fc)) := by
  have he : runDaemonTestsEntry c2 opts s =
      { state := s, events := [.error "Tests already running - wait or restart daemon"],
        closed := true, proceeded := false } := by
    rw [runDaemonTestsEntry, hrun]
    simp
  rw [he]
  refine ⟨⟨rfl, rfl, rfl, rfl⟩, rfl, ?_⟩
  intro hdisc
  simp [runDaemonTestsComplete, hdisc, List.getLast?_concat]

/-- C1 witness: a second request during a run with two failures still
yields the error event, and the first run's completion still ends with
`done` carrying two failures. -/
theorem C1_witness :
    (⟨true, false, false, [0], none⟩ : DaemonState).daemonTestsRunning = true
    ∧ (runDaemonTestsEntry 1 ⟨"spec", false, false⟩
        ⟨true, false, false, [0], none⟩).events
        = [.error "Tests already running - wait or restart daemon"]
    ∧ (runDaemonTestsComplete 0 none false "" none (.num 2)
        (runDaemonTestsEntry 1 ⟨"spec", false, false⟩
          ⟨true, false, false, [0], none⟩).state).2.1.getLast?
        = some (.done (.num 2)) := by
  have h := C1_already_running_guard ⟨true, false, false, [0], none⟩ 0 1
    ⟨"spec", false, false⟩ none false "" none (.num 2) rfl
  exact ⟨rfl, h.1.1, h.2.2 rfl⟩

/-- C2 counterexample: with both `shuttingDown` and `daemonTestsRunning`
set — reachable because a signal during a run sets `shuttingDown` while
the run keeps `daemonTestsRunning` true until its callback — a new run
request is answered by the "already running" error event and no shutdown
notice at all: the Running rule, not the ShuttingDown rule, is checked
first in `runDaemonTests`. -/
theorem C2_counterexample :
    (runDaemonTestsEntry 1 ⟨"spec", false, false⟩
        ⟨true, false, true, [0], none⟩).events
      = [.error "Tests already running - wait or restart daemon"]
    ∧ ((runDaemonTestsEntry 1 ⟨"spec", false, false⟩
        ⟨true, false, true, [0], none⟩).events.any isShutdownEvent) = false := by
  decide

/-- C2 (amended): after the shutdown flag is set every run request is
rejected with the connection closed and no state change — in particular
no transition back to Running ever happens — but the notice emitted
follows the Running rule first: a shutdown event only when no run is in
flight, the "already running" error when one is.  The signal handler
itself is idempotent and leaves the flag set. -/
theorem C2_shutdown_rejection_amended (s : DaemonState) (c : Nat) (opts : RunOptions)
    (sig : String) (hshut : s.shuttingDown = true) :
    ((runDaemonTestsEntry c opts s).state = s
      ∧ (runDaemonTestsEntry c opts s).closed = true
      ∧ (runDaemonTestsEntry c opts s).proceeded = false
      ∧ (runDaemonTestsEntry c opts s).events =
          (if s.daemonTestsRunning = true then
            [.error "Tests already running - wait or restart daemon"]
          else [.shutdown "Server is shutting down"]))
    ∧ ((shutdownHandler sig s).1.shuttingDown = true
      ∧ shutdownHandler sig s = (s, [])) := by
  constructor
  · cases hb : s.daemonTestsRunning with
    | true =>
      have he : runDaemonTestsEntry c opts s =
          { state := s,
            events := [.error "Tests already running - wait or restart daemon"],
            closed := true, proceeded := false } := by
        rw [runDaemonTestsEntry, hb]
        simp
      rw [he]
      simp
    | false =>
      have he : runDaemonTestsEntry c opts s =
          { state := s,
            events := [.shutdown "Server is shutting down"],
            closed := true, proceeded := false } := by
        rw [runDaemonTestsEntry, hb, hshut]
        simp
      rw [he]
      simp
  · have hh : shutdownHandler sig s = (s, []) := by
      rw [shutdownHandler, hshut]
      simp
    rw [hh]
    exact ⟨hshut, rfl⟩

/-- C2 witness: with the shutdown flag set and no run in flight, a run
request yields the shutdown notice event. -/
theorem C2_witness :
    (⟨false, false, true, [], none⟩ : DaemonState).shuttingDown = true
    ∧ (runDaemonTestsEntry 0 ⟨"spec", false, false⟩
        ⟨false, false, true, [], none⟩).events
        = [.shutdown "Server is shutting down"] := by
  refine ⟨rfl, ?_⟩
  have h := (C2_shutdown_rejection_amended ⟨false, false, true, [], none⟩ 0
    ⟨"spec", false, false⟩ "SIGTERM" rfl).1.2.2.2
  rw [h]
  decide

/-- C4: a run request whose file pattern matches no suites is answered
with exactly one error event naming the file followed by a `done` event
with one failure, then the connection is closed; `runDaemonTests` (and
hence `mochaInstance.run`) is never reached and the daemon state is
untouched. -/
theorem C4_zero_suites_fast_fail (root : Suite) (q : RunQuery) (c : Nat) (s : DaemonState)
    (hfile : q.file ≠ "") (hnone : findSuitesForFile root q.file = []) :
    handleRunRequest root q c s =
      { state := s,
        events := [.error ("No tests found for file: " ++ q.file), .done (.num 1)],
        closed := true, effectiveGrep := none, runnerInvoked := false } := by
  rw [handleRunRequest, if_pos hfile]
  simp [hnone]

/-- C4 witness: a registry holding one suite from "x/a.spec.ts" and a run
request for "nonexistent/path.ts". -/
theorem C4_witness :
    handleRunRequest
        (Suite.node "" none
          (SuiteList.cons (Suite.node "A" (some "x/a.spec.ts") SuiteList.nil) SuiteList.nil))
        ⟨"", "nonexistent/path.ts", false, "spec", false, false⟩ 0
        ⟨false, false, false, [], none⟩
      = { state := ⟨false, false, false, [], none⟩,
          events := [.error "No tests found for file: nonexistent/path.ts",
            .done (.num 1)],
          closed := true, effectiveGrep := none, runnerInvoked := false } := by
  rw [C4_zero_suites_fast_fail
    (Suite.node "" none
      (SuiteList.cons (Suite.node "A" (some "x/a.spec.ts") SuiteList.nil) SuiteList.nil))
    ⟨"", "nonexistent/path.ts", false, "spec", false, false⟩ 0
    ⟨false, false, false, [], none⟩ (by decide) (by decide)]
  rfl

/-- C7 counterexample: in daemon mode the completion callback forwards a
non-numeric failure value unchanged — the `done` event does not carry
`failures: 1` and no tooling-malfunction line is logged. -/
theorem C7_counterexample :
    (runDaemonTestsComplete 0 none false "" none .nonNumeric
        ⟨true, false, false, [0], none⟩).2.1 = [.done .nonNumeric]
    ∧ (runDaemonTestsComplete 0 none false "" none .nonNumeric
        ⟨true, false, false, [0], none⟩).2.2 = []
    ∧ Event.done .nonNumeric ≠ Event.done (.num 1) := by
  decide

/-- C7 (amended): the daemon's completion callback forwards whatever
failure value the runner delivered — numeric or not — unchanged in its
terminal `done` event and logs no malfunction line (absent a cleanup
failure); the treat-non-numeric-as-one-failure behaviour with its
distinct log line exists only in the non-daemon `serverTests`
callback. -/
theorem C7_nonNumeric_forwarded_amended (c : Nat) (prev : Option String) (useJson : Bool)
    (buf : String) (fc : FailureVal) (s : DaemonState)
    (hconn : s.clientDisconnected = false) :
    ((runDaemonTestsComplete c prev useJson buf none fc s).2.1.getLast? = some (.done fc)
      ∧ (runDaemonTestsComplete c prev useJson buf none fc s).2.2 = [])
    ∧ serverTestsRunCallback .nonNumeric
        = (1, ["Mocha did not return a failure count for server tests as expected"])
    ∧ (∀ n : Nat, serverTestsRunCallback (.num n) = (n, [])) := by
  refine ⟨?_, rfl, fun n => rfl⟩
  constructor
  · simp [runDaemonTestsComplete, hconn, List.getLast?_concat]
  · simp [runDaemonTestsComplete, hconn]

/-- C7 witness: a connected completion with a non-numeric count ends with
`done` carrying that non-numeric value. -/
theorem C7_witness :
    (⟨true, false, false, [0], none⟩ : DaemonState).clientDisconnected = false
    ∧ (runDaemonTestsComplete 0 none false "" none .nonNumeric
        ⟨true, false, false, [0], none⟩).2.1.getLast? = some (.done .nonNumeric) :=
  ⟨rfl, (C7_nonNumeric_forwarded_amended 0 none false "" .nonNumeric
    ⟨true, false, false, [0], none⟩ rfl).1.1⟩

theorem interceptTrace_json_buffer (ops : List WriteOp) (buf : String) :
    (interceptTrace true buf ops).1 = buf ++ concatOut ops := by
  induction ops generalizing buf with
  | nil => simp [interceptTrace, concatOut]
  | cons op ops ih =>
    cases op with
    | out c => simp [interceptTrace, interceptWrite, concatOut, ih, String.append_assoc]
    | err c => simp [interceptTrace, interceptWrite, concatOut, ih]

theorem interceptTrace_json_events (ops : List WriteOp) (buf : String) :
    (interceptTrace true buf ops).2 = errEvents ops := by
  induction ops generalizing buf with
  | nil => rfl
  | cons op ops ih =>
    cases op with
    | out c => simp [interceptTrace, interceptWrite, errEvents, ih]
    | err c => simp [interceptTrace, interceptWrite, errEvents, ih]

theorem errEvents_not_log (ops : List WriteOp) : ∀ e ∈ errEvents ops, isLogEvent e = false := by
  induction ops with
  | nil => intro e he; cases he
  | cons op ops ih =>
    cases op with
    | out c =>
      intro e he
      exact ih e he
    | err c =>
      intro e he
      rw [show errEvents (.err c :: ops)
          = .error (stripTrailingNewline c) :: errEvents ops from rfl] at he
      rcases List.mem_cons.mp he with rfl | h2
      · rfl
      · exact ih e h2

/-- C8: with the JSON reporter selected, stdout writes during a run are
not forwarded as individual log events — the intercepted trace emits no
`log` event and the stdout chunks accumulate in the buffer in order —
and at run end, when the peer is still connected and the buffer is
non-empty, a single consolidated `json` event is emitted immediately
before the terminal `done` event. -/
theorem C8_json_reporter_buffering (ops : List WriteOp) (buf0 : String) (c : Nat)
    (prev : Option String) (fc : FailureVal) (s : DaemonState) (buf : String)
    (hconn : s.clientDisconnected = false) (hbuf : buf ≠ "") :
    ((interceptTrace true buf0 ops).1 = buf0 ++ concatOut ops
      ∧ ∀ e ∈ (interceptTrace true buf0 ops).2, isLogEvent e = false)
    ∧ (runDaemonTestsComplete c prev true buf none fc s).2.1
        = [.json buf.trim, .done fc] := by
  refine ⟨⟨interceptTrace_json_buffer ops buf0, ?_⟩, ?_⟩
  · intro e he
    rw [interceptTrace_json_events] at he
    exact errEvents_not_log ops e he
  · simp [runDaemonTestsComplete, hconn, hbuf]

/-- C8 witness: with a connected peer and the non-empty buffer "out", the
completion emits the consolidated json event immediately before done. -/
theorem C8_witness :
    (⟨true, false, false, [0], none⟩ : DaemonState).clientDisconnected = false
    ∧ ("out" : String) ≠ ""
    ∧ (runDaemonTestsComplete 0 none true "out" none (.num 0)
        ⟨true, false, false, [0], none⟩).2.1 = [.json ("out".trim), .done (.num 0)] :=
  ⟨rfl, by decide,
    (C8_json_reporter_buffering [] "" 0 none (.num 0) ⟨true, false, false, [0], none⟩
      "out" rfl (by decide)).2⟩

/-- C9: a run passing the entry guard with `snapshotUpdate` requested has
SNAPSHOT_UPDATE set to "1" for its duration (and untouched otherwise),
the prior value being captured at entry; the completion callback — which
runs on success and error paths alike, cleanup failures included —
restores exactly the captured prior value from any mid-run state,
deleting the variable again when it was previously unset, so no run
permanently mutates it. -/
theorem C9_snapshot_env_restored (s : DaemonState) (c c2 : Nat) (opts : RunOptions)
    (useJson : Bool) (buf : String) (cleanup : Option String) (fc : FailureVal)
    (hidle : s.daemonTestsRunning = false) (hdown : s.shuttingDown = false) :
    ((opts.snapshotUpdate = true →
        (runDaemonTestsEntry c opts s).state.snapshotEnv = some "1")
      ∧ (opts.snapshotUpdate = false →
        (runDaemonTestsEntry c opts s).state.snapshotEnv = s.snapshotEnv))
    ∧ ∀ mid : DaemonState,
        (runDaemonTestsComplete c2 s.snapshotEnv useJson buf cleanup fc mid).1.snapshotEnv
          = s.snapshotEnv := by
  have he : (runDaemonTestsEntry c opts s).state.snapshotEnv
      = (if opts.snapshotUpdate then some "1" else s.snapshotEnv) := by
    rw [runDaemonTestsEntry, hidle]
    simp [hdown]
  refine ⟨⟨?_, ?_⟩, ?_⟩
  · intro h
    rw [he, if_pos h]
  · intro h
    rw [he, if_neg (by simp [h])]
  · intro mid
    cases hd : mid.clientDisconnected <;> simp [runDaemonTestsComplete, hd]

/-- C9 witness: with SNAPSHOT_UPDATE previously "0", a snapshot-update
run sets it to "1" and completion restores "0". -/
theorem C9_witness :
    (⟨false, false, false, [], some "0"⟩ : DaemonState).daemonTestsRunning = false
    ∧ (runDaemonTestsEntry 0 ⟨"spec", true, false⟩
        ⟨false, false, false, [], some "0"⟩).state.snapshotEnv = some "1"
    ∧ (runDaemonTestsComplete 0
        (⟨false, false, false, [], some "0"⟩ : DaemonState).snapshotEnv
        false "" none (.num 0)
        (runDaemonTestsEntry 0 ⟨"spec", true, false⟩
          ⟨false, false, false, [], some "0"⟩).state).1.snapshotEnv
      = some "0" := by
  have h := C9_snapshot_env_restored ⟨false, false, false, [], some "0"⟩ 0 0
    ⟨"spec", true, false⟩ false "" none (.num 0) rfl rfl
  exact ⟨rfl, h.1.1 rfl, h.2 _⟩

/-- C10: each stderr write during a JSON-reporter run is still streamed
immediately as exactly one `error` event with the trailing newline
stripped, leaving the json buffer untouched; over a whole trace the
emitted events are exactly the stderr events in order, while only the
stdout chunks feed the consolidated buffer. -/
theorem C10_stderr_streams_in_json_mode :
    (∀ (useJson : Bool) (buf chunk : String),
        interceptWrite useJson (.err chunk) buf
          = (buf, [.error (stripTrailingNewline chunk)]))
    ∧ (∀ (ops : List WriteOp) (buf : String),
        (interceptTrace true buf ops).2 = errEvents ops
          ∧ (interceptTrace true buf ops).1 = buf ++ concatOut ops) :=
  ⟨fun _ _ _ => rfl,
    fun ops buf => ⟨interceptTrace_json_events ops buf, interceptTrace_json_buffer ops buf⟩⟩
